import Mathlib

set_option maxRecDepth 4000

/-! Shallow embedding of `src/app.py` (Spleeter API server).

The Python module keeps its state in module-level globals: `jobs` (an
`OrderedDict` from job id to a job dict), the `is_processing` flag, and the
engine cache (`separator_instance`, `current_model`).  We model that state as
a `ServerState`:

* `jobs` becomes an association list preserving insertion order (Python dicts
  keep insertion order; updates in place keep the position);
* the filesystem becomes the list of existing paths;
* `separator_instance` (a live Spleeter `Separator` object or `None`) becomes
  a `Bool` recording whether a live instance exists, `current_model` stays an
  `Option String`;
* the external collaborators (librosa duration measurement, `Separator`
  construction, `separate_to_file`, `os.remove`) are oracles that supply
  either their result or the exception they raise.

Handlers become state-passing functions: `separate_audio` (POST
/api/separate), `process_queue` / `run_separation` (the worker thread,
fuel-indexed since Lean functions must terminate; fuel at least the number of
queued jobs reproduces the loop exactly), `get_job_status` (GET /api/status).
`run_separation` also returns the list of engine-cache events (release /
construct) it performs, so that cache liveness can be inspected at every
instant. -/

/-- Job states: the `status` strings of `app.py`
(`queued` / `processing` / `complete` / `error`). -/
inductive JobStatus
  | queued
  | processing
  | complete
  | error
deriving DecidableEq, Repr

/-- One entry of a job's `files` list (`app.py` lines 248-253). -/
structure StemFile where
  name : String
  path : String
deriving DecidableEq, Repr

/-- A job record: the dict created at `app.py` lines 146-154.  The `error`
key is only added by the failure handler (line 269), hence an `Option`. -/
structure Job where
  status : JobStatus
  progress : Nat
  stems : String
  files : List StemFile
  queue_position : Nat
  created_at : Nat
  input_path : String
  error : Option String
deriving DecidableEq, Repr

/-- The module-level mutable state of `app.py`, plus the filesystem. -/
structure ServerState where
  jobs : List (String × Job)
  fs : List String
  separator_instance : Bool
  current_model : Option String
  is_processing : Bool
deriving DecidableEq, Repr

/-- `OUTPUT_DIR` (`app.py` line 30, default value). -/
def OUTPUT_DIR : String := "/tmp/spleeter-output"

/-- `MAX_DURATION_SECONDS` (`app.py` line 34). -/
def MAX_DURATION_SECONDS : Nat := 600

/-- Dictionary lookup `jobs[job_id]` / `job_id in jobs`: first (and, for a
dict, only) binding of the key. -/
def lookupJob : List (String × Job) → String → Option Job
  | [], _ => none
  | p :: rest, id => if p.1 = id then some p.2 else lookupJob rest id

/-- In-place mutation `jobs[job_id][...] = ...` of one record. -/
def updateJob : List (String × Job) → String → (Job → Job) → List (String × Job)
  | [], _, _ => []
  | p :: rest, id, f =>
    if p.1 = id then (p.1, f p.2) :: updateJob rest id f
    else p :: updateJob rest id f

/-- `jobs[job_id] = record`: Python dicts overwrite in place when the key
exists and append at the end otherwise. -/
def insertOD (jobs : List (String × Job)) (id : String) (j : Job) :
    List (String × Job) :=
  if (lookupJob jobs id).isSome then updateJob jobs id (fun _ => j)
  else jobs ++ [(id, j)]

/-- `status in ['queued', 'processing']` (`app.py` line 144). -/
def statusNonTerminal : JobStatus → Bool
  | .queued => true
  | .processing => true
  | _ => false

/-- `len([j for j in jobs.values() if j['status'] in ['queued', 'processing']])`. -/
def countNonTerminal (jobs : List (String × Job)) : Nat :=
  (jobs.filter (fun p => statusNonTerminal p.2.status)).length

/-- `status == 'queued'`. -/
def isQueued : JobStatus → Bool
  | .queued => true
  | _ => false

/-- The keys of the job store, in insertion order. -/
def jobKeys (jobs : List (String × Job)) : List String := jobs.map Prod.fst

/-- The pending (queued) jobs, in store order (which is `created_at`
ascending, since `created_at = time.time()` is taken at insertion). -/
def pendingJobs (jobs : List (String × Job)) : List (String × Job) :=
  jobs.filter (fun p => isQueued p.2.status)

/-- The `queue_position` fields of the pending jobs, in store order. -/
def pendingPositions (jobs : List (String × Job)) : List Nat :=
  (pendingJobs jobs).map (fun p => p.2.queue_position)

/-- The spec's density invariant: the positions of the pending jobs are
exactly `0, 1, ..., m-1` in `created_at` (store) order. -/
def pendingDense (jobs : List (String × Job)) : Prop :=
  pendingPositions jobs = List.range (pendingJobs jobs).length

/-- A submission request: whether a file part is present, the `stems` form
field, and the result of the librosa duration measurement (`none` when
`librosa.get_duration` raises — `app.py` lines 133-141). -/
structure SubmitReq where
  hasFile : Bool
  stemsParam : Option String
  duration : Option Nat
deriving DecidableEq, Repr

/-- `stems = request.form.get('stems', '2'); if stems == '5': stems = '4'`
(`app.py` lines 118-122). -/
def normalizeStems (p : Option String) : String :=
  let stems := p.getD "2"
  if stems = "5" then "4" else stems

/-- An HTTP response of the submission endpoint. -/
inductive ApiResult
  | err (code : Nat) (msg : String)
  | okSubmit (job_id : String) (queue_position : Nat) (stems : String)
      (message : String)
deriving DecidableEq, Repr

/-- `job_dir = os.path.join(OUTPUT_DIR, job_id)` (`app.py` line 126). -/
def jobDir (job_id : String) : String := OUTPUT_DIR ++ "/" ++ job_id

/-- `input_path = os.path.join(job_dir, 'input.mp3')` (`app.py` line 129). -/
def inputPathOf (job_id : String) : String := jobDir job_id ++ "/input.mp3"

/-- Create a path (`os.makedirs` / `file.save`): idempotent add. -/
def addPath (fs : List String) (p : String) : List String :=
  if p ∈ fs then fs else fs ++ [p]

/-- The rejection message of `app.py` line 138. -/
def tooLongMsg (d : Nat) : String :=
  "Audio too long (" ++ toString d ++ "s). Max is " ++
    toString MAX_DURATION_SECONDS ++ "s (5 min). Please trim your file."

/-- The queue message of `app.py` line 163. -/
def submitMessage (queue_position : Nat) : String :=
  if queue_position > 0 then
    "You\x27re #" ++ toString (queue_position + 1) ++ " in queue"
  else "Processing now..."

/-- The insertion step of `separate_audio` (`app.py` lines 143-164): under
the queue lock, count the non-terminal jobs, insert the new `queued` record,
then `start_queue_processor()` (whose effect on the modelled state is
`is_processing := true`; the worker computation itself is `process_queue`,
applied separately since it runs on its own thread). -/
def separate_audio_enqueue (st : ServerState) (stems : String)
    (job_id : String) (now : Nat) : ServerState × ApiResult :=
  let queue_position := countNonTerminal st.jobs
  let j : Job :=
    { status := .queued, progress := 0, stems := stems, files := [],
      queue_position := queue_position, created_at := now,
      input_path := inputPathOf job_id, error := none }
  let st1 := { st with jobs := insertOD st.jobs job_id j,
                       is_processing := true }
  (st1, .okSubmit job_id queue_position stems (submitMessage queue_position))

/-- `separate_audio` (`app.py` lines 111-164), POST /api/separate.
Order as in the source: missing-file check, stems normalization, job
directory creation and file save, best-effort duration check (rejection
returns before any job record is created; a failed measurement is
swallowed), then insertion. `job_id` models `uuid.uuid4()` and `now` models
`time.time()`. -/
def separate_audio (st : ServerState) (req : SubmitReq) (job_id : String)
    (now : Nat) : ServerState × ApiResult :=
  if req.hasFile then
    let stems := normalizeStems req.stemsParam
    let fs1 := addPath (addPath st.fs (jobDir job_id)) (inputPathOf job_id)
    let st1 := { st with fs := fs1 }
    match req.duration with
    | some d =>
      if d > MAX_DURATION_SECONDS then (st1, .err 400 (tooLongMsg d))
      else separate_audio_enqueue st1 stems job_id now
    | none => separate_audio_enqueue st1 stems job_id now
  else (st, .err 400 "No file provided")

/-- Results of the external collaborators used by one `run_separation` call:
the exception message of `Separator(model)` when it raises, the exception
message of `separate_to_file` when it raises, the file names written into
the stem directory (`none` when the directory is not created), and the
exception message of `os.remove(input_path)` when it raises. -/
structure EngineOracle where
  constructFails : Option String
  runFails : Option String
  stemFiles : Option (List String)
  removeFails : Option String
deriving DecidableEq, Repr

/-- Engine-cache events: releasing the cached instance (`del
separator_instance`, `app.py` lines 219-223) and constructing a new one
(`Separator(model)`, line 232), each tagged with the model string. -/
inductive EngineEvent
  | release (model : String)
  | construct (model : String)
deriving DecidableEq, Repr

/-- `model = f'spleeter:{stems}stems'` (`app.py` line 213). -/
def mkModel (stems : String) : String := "spleeter:" ++ stems ++ "stems"

/-- The exception handler of `run_separation` (`app.py` lines 264-269):
`jobs[job_id]['status'] = 'error'; jobs[job_id]['error'] = str(e)`. -/
def setJobError (st : ServerState) (job_id : String) (msg : String) :
    ServerState :=
  { st with
      jobs := updateJob st.jobs job_id
        (fun j => { j with status := .error, error := some msg }) }

/-- `jobs[job_id]['progress'] = p`. -/
def setJobProgress (st : ServerState) (job_id : String) (p : Nat) :
    ServerState :=
  { st with
      jobs := updateJob st.jobs job_id (fun j => { j with progress := p }) }

/-- The first statements of `run_separation` (`app.py` lines 207-209): mark
the chosen job `processing`, progress 5, queue position 0.  This is the
instant at which the job leaves the pending set; the rest of the call
(engine work) runs for a long time afterwards on the worker thread, so the
state after this prefix is observable by concurrent requests. -/
def run_separation_start (st : ServerState) (job_id : String) : ServerState :=
  { st with
      jobs := updateJob st.jobs job_id
        (fun j => { j with status := .processing, progress := 5,
                           queue_position := 0 }) }

/-- `output_dir = os.path.join(OUTPUT_DIR, job_id, 'stems')` (line 237). -/
def outputDirOf (job_id : String) : String :=
  OUTPUT_DIR ++ "/" ++ job_id ++ "/stems"

/-- `stem_dir = os.path.join(output_dir, 'input')` (line 245). -/
def stemDirOf (job_id : String) : String := outputDirOf job_id ++ "/input"

/-- Collecting the output files (`app.py` lines 247-253): keep the `.wav`
entries, record name and download path. -/
def stemFileEntries (job_id : String) (names : List String) : List StemFile :=
  (names.filter (fun f => f.endsWith ".wav")).map
    (fun f => { name := f.replace ".wav" "",
                path := "/api/download/" ++ job_id ++ "/" ++ f })

/-- Filesystem effect of `separate_to_file`: when the engine produces
output, the stem directory and the written files come into existence. -/
def applyEngineOutputs (fs : List String) (job_id : String) :
    Option (List String) → List String
  | none => fs
  | some names =>
    names.foldl (fun acc f => addPath acc (stemDirOf job_id ++ "/" ++ f))
      (addPath fs (stemDirOf job_id))

/-- The tail of `run_separation` from progress 30 on (`app.py` lines
235-262, with the exception handler of lines 264-269 applied to any
raise): progress 30, run the engine, progress 90, collect the output files
if the stem directory exists, mark the job `complete` with progress 100,
then delete the input file — a raise from that deletion falls into the same
handler and overwrites the status with `error`. -/
def run_separation_run (st : ServerState) (job_id : String)
    (input_path : String) (o : EngineOracle) (evs : List EngineEvent) :
    ServerState × List EngineEvent :=
  let st := setJobProgress st job_id 30
  match o.runFails with
  | some m => (setJobError st job_id m, evs)
  | none =>
    let st1 := { st with fs := applyEngineOutputs st.fs job_id o.stemFiles }
    let st2 := setJobProgress st1 job_id 90
    let st3 :=
      if stemDirOf job_id ∈ st2.fs then
        { st2 with
            jobs := updateJob st2.jobs job_id
              (fun j => { j with
                files := stemFileEntries job_id (o.stemFiles.getD []) }) }
      else st2
    let st4 :=
      { st3 with
          jobs := updateJob st3.jobs job_id
            (fun j => { j with status := .complete, progress := 100 }) }
    if input_path ∈ st4.fs then
      match o.removeFails with
      | some m => (setJobError st4 job_id m, evs)
      | none => ({ st4 with fs := st4.fs.erase input_path }, evs)
    else (st4, evs)

/-- The body of `run_separation` after the `processing` prefix (`app.py`
lines 211-235 then `run_separation_run`): read the job's `stems` and
`input_path`, release the cached engine when the model changed
(`separator_instance is not None and current_model != model`, lines
219-223 — note `current_model` is not cleared by the release), progress 10,
then construct when needed (`separator_instance is None or current_model
!= model`, lines 230-233; a raise of `Separator(model)` leaves the cache
empty and falls to the handler). -/
def run_separation_rest (st : ServerState) (job_id : String)
    (o : EngineOracle) : ServerState × List EngineEvent :=
  match lookupJob st.jobs job_id with
  | none => (st, [])
  | some j =>
    let model := mkModel j.stems
    let input_path := j.input_path
    let doRelease := st.separator_instance && !(st.current_model == some model)
    let evs0 : List EngineEvent :=
      if doRelease then [.release (st.current_model.getD "")] else []
    let live1 := if doRelease then false else st.separator_instance
    let st1 := setJobProgress { st with separator_instance := live1 } job_id 10
    if !live1 || !(st.current_model == some model) then
      match o.constructFails with
      | some m => (setJobError st1 job_id m, evs0)
      | none =>
        run_separation_run
          { st1 with separator_instance := true, current_model := some model }
          job_id input_path o (evs0 ++ [.construct model])
    else run_separation_run st1 job_id input_path o evs0

/-- `run_separation(job_id)` (`app.py` lines 203-271), also returning the
engine-cache events it performed, in order. -/
def run_separation_ev (st : ServerState) (job_id : String) (o : EngineOracle) :
    ServerState × List EngineEvent :=
  run_separation_rest (run_separation_start st job_id) job_id o

/-- `run_separation(job_id)`: the state effect alone. -/
def run_separation (st : ServerState) (job_id : String) (o : EngineOracle) :
    ServerState :=
  (run_separation_ev st job_id o).1

/-- The recomputation loop of `process_queue` (`app.py` lines 196-201):
walk the store in order and give the queued jobs positions 0, 1, 2, .... -/
def recomputePositionsAux : Nat → List (String × Job) → List (String × Job)
  | _, [] => []
  | pos, p :: rest =>
    if isQueued p.2.status then
      (p.1, { p.2 with queue_position := pos }) ::
        recomputePositionsAux (pos + 1) rest
    else p :: recomputePositionsAux pos rest

/-- `app.py` lines 196-201 as one state step. -/
def recomputePositions (jobs : List (String × Job)) : List (String × Job) :=
  recomputePositionsAux 0 jobs

/-- The scan of `app.py` lines 183-186: first job with status `queued`. -/
def findQueued (jobs : List (String × Job)) : Option String :=
  (jobs.find? (fun p => isQueued p.2.status)).map Prod.fst

/-- `process_queue` (`app.py` lines 176-201) with its engine events.  Each
iteration picks the first queued job, runs it (`run_separation` never lets
an exception escape), then recomputes queue positions; when no queued job
remains it clears `is_processing` and returns.  The loop is fuel-indexed;
since every iteration turns one queued job terminal, fuel exceeding the
number of queued jobs reproduces the source loop exactly. -/
def process_queue_ev :
    Nat → (String → EngineOracle) → ServerState → ServerState × List EngineEvent
  | 0, _, st => (st, [])
  | fuel + 1, orc, st =>
    match findQueued st.jobs with
    | none => ({ st with is_processing := false }, [])
    | some job_id =>
      let r1 := run_separation_ev st job_id (orc job_id)
      let st2 := { r1.1 with jobs := recomputePositions r1.1.jobs }
      let r2 := process_queue_ev fuel orc st2
      (r2.1, r1.2 ++ r2.2)

/-- `process_queue`: the state effect alone. -/
def process_queue (fuel : Nat) (orc : String → EngineOracle)
    (st : ServerState) : ServerState :=
  (process_queue_ev fuel orc st).1

/-- A status payload of GET /api/status (`app.py` lines 273-293). -/
inductive StatusResult
  | notFound
  | ok (status : JobStatus) (progress : Nat) (files : List StemFile)
      (queue_position : Option Nat) (message : Option String)
      (error : Option String)
deriving DecidableEq, Repr

/-- `get_job_status` (`app.py` lines 273-293). -/
def get_job_status (st : ServerState) (job_id : String) : StatusResult :=
  match lookupJob st.jobs job_id with
  | none => .notFound
  | some j =>
    match j.status with
    | .queued =>
      .ok .queued j.progress j.files (some j.queue_position)
        (some ("You\x27re #" ++ toString (j.queue_position + 1) ++ " in queue"))
        none
    | .processing =>
      .ok .processing j.progress j.files none
        (some "AI processing your audio...") none
    | .error => .ok .error j.progress j.files none none
        (some (j.error.getD "Unknown error"))
    | .complete => .ok .complete j.progress j.files none none none

/-- GET /api/queue counts (`app.py` lines 302-312). -/
structure QueueCounts where
  queued : Nat
  processing : Nat
  completed : Nat
deriving DecidableEq, Repr

/-- `get_queue_status` (`app.py` lines 302-312). -/
def get_queue_status (st : ServerState) : QueueCounts :=
  { queued := (st.jobs.filter (fun p => p.2.status == JobStatus.queued)).length,
    processing :=
      (st.jobs.filter (fun p => p.2.status == JobStatus.processing)).length,
    completed :=
      (st.jobs.filter (fun p => p.2.status == JobStatus.complete)).length }

/-- Whether the duration check of `app.py` lines 133-141 admits the
request: a measured duration is admitted unless it exceeds the ceiling; a
failed measurement is always admitted. -/
def durationAdmits (req : SubmitReq) : Bool :=
  match req.duration with
  | some d => !(decide (d > MAX_DURATION_SECONDS))
  | none => true

/-- A sequence of submissions (requests with their fresh ids and
timestamps), applied in order; returns the final state and the responses. -/
def submitList :
    ServerState → List (SubmitReq × String × Nat) → ServerState × List ApiResult
  | st, [] => (st, [])
  | st, (req, id, now) :: rest =>
    let r := separate_audio st req id now
    let r2 := submitList r.1 rest
    (r2.1, r.2 :: r2.2)

/-- The queue position carried by a submission response. -/
def responsePos : ApiResult → Option Nat
  | .okSubmit _ q _ _ => some q
  | .err _ _ => none

/-- Number of live engine instances held by the cache (the Python globals
can hold at most `separator_instance` itself). -/
def liveOf (st : ServerState) : Nat := if st.separator_instance then 1 else 0

/-- Live-instance count after a list of engine events: a release frees an
instance, a construction creates one. -/
def liveCount : Nat → List EngineEvent → Nat
  | c, [] => c
  | c, .release _ :: es => liveCount (c - 1) es
  | c, .construct _ :: es => liveCount (c + 1) es

/-- Number of (expensive) `Separator` constructions in an event list. -/
def constructCount : List EngineEvent → Nat
  | [] => 0
  | .construct _ :: es => constructCount es + 1
  | .release _ :: es => constructCount es

/-- The engine-cache step of `run_separation` in isolation (`app.py` lines
219-233, successful construction): from the cache `(live, cur)` and the
requested `model`, the new cache and the emitted events. -/
def acquireStep (live : Bool) (cur : Option String) (model : String) :
    Bool × Option String × List EngineEvent :=
  let doRelease := live && !(cur == some model)
  let evs0 : List EngineEvent :=
    if doRelease then [.release (cur.getD "")] else []
  let live1 := if doRelease then false else live
  if !live1 || !(cur == some model) then
    (true, some model, evs0 ++ [.construct model])
  else (live1, cur, evs0)

/-- `acquireStep` iterated over the models of a run of jobs. -/
def acquireRun :
    Bool → Option String → List String → Bool × Option String × List EngineEvent
  | live, cur, [] => (live, cur, [])
  | live, cur, m :: ms =>
    let s1 := acquireStep live cur m
    let s2 := acquireRun s1.1 s1.2.1 ms
    (s2.1, s2.2.1, s1.2.2 ++ s2.2.2)

/-- Number of model changes along a run of jobs, relative to the initially
cached model (an empty cache counts the first job as a change). -/
def profileChanges : Option String → List String → Nat
  | _, [] => 0
  | cur, m :: ms => (if cur == some m then 0 else 1) + profileChanges (some m) ms

/-- The module-load state of `app.py` (lines 21-27): no jobs, no engine,
no worker; the filesystem holds only the output root. -/
def initialState : ServerState :=
  { jobs := [], fs := [OUTPUT_DIR], separator_instance := false,
    current_model := none, is_processing := false }

/-- A well-formed 100-second submission with the default two-stem profile. -/
def shortReq : SubmitReq :=
  { hasFile := true, stemsParam := some "2", duration := some 100 }

/-- An oracle under which engine construction, execution and cleanup all
succeed (the engine writes its stems without listing them here). -/
def okOracle : EngineOracle :=
  { constructFails := none, runFails := none, stemFiles := none,
    removeFails := none }

/-- A two-stem job record as stored for job id "A" at time 1. -/
def jobA : Job :=
  { status := .queued, progress := 0, stems := "2", files := [],
    queue_position := 0, created_at := 1, input_path := inputPathOf "A",
    error := none }

/-- A server state whose store holds only `jobA` and whose engine cache is
live for `model`. -/
def cacheState (model : String) : ServerState :=
  { jobs := [("A", jobA)], fs := [], separator_instance := true,
    current_model := some model, is_processing := true }

/-! Helper lemmas about the store, the filesystem and the per-job steps. -/


theorem lookupJob_updateJob_self (js : List (String × Job)) (id : String)
    (f : Job → Job) :
    lookupJob (updateJob js id f) id = (lookupJob js id).map f := by
  induction js with
  | nil => rfl
  | cons p rest ih =>
    by_cases h : p.1 = id <;> simp [lookupJob, updateJob, h, ih]

theorem lookupJob_updateJob_ne (js : List (String × Job)) (id id' : String)
    (f : Job → Job) (h : id' ≠ id) :
    lookupJob (updateJob js id f) id' = lookupJob js id' := by
  induction js with
  | nil => rfl
  | cons p rest ih =>
    by_cases hp : p.1 = id
    · have hq : ¬ (p.1 = id') := fun hc => Ne.symm h (hp ▸ hc)
      simp [lookupJob, updateJob, hp, hq, Ne.symm h, ih]
    · by_cases hq : p.1 = id' <;>
        simp [lookupJob, updateJob, hp, hq, h, Ne.symm h, ih]

theorem jobKeys_updateJob (js : List (String × Job)) (id : String)
    (f : Job → Job) : jobKeys (updateJob js id f) = jobKeys js := by
  induction js with
  | nil => rfl
  | cons p rest ih =>
    by_cases h : p.1 = id <;> simp [jobKeys, updateJob, h] <;>
      simpa [jobKeys] using ih

theorem updateJob_updateJob (js : List (String × Job)) (id : String)
    (f g : Job → Job) :
    updateJob (updateJob js id f) id g = updateJob js id (fun j => g (f j)) := by
  induction js with
  | nil => rfl
  | cons p rest ih =>
    by_cases h : p.1 = id <;> simp [updateJob, h, ih]

theorem insertOD_fresh (js : List (String × Job)) (id : String) (j : Job)
    (h : lookupJob js id = none) : insertOD js id j = js ++ [(id, j)] := by
  simp [insertOD, h]

theorem lookupJob_append_fresh (js : List (String × Job)) (id : String)
    (j : Job) (h : lookupJob js id = none) :
    lookupJob (js ++ [(id, j)]) id = some j := by
  induction js with
  | nil => simp [lookupJob]
  | cons p rest ih =>
    by_cases hp : p.1 = id
    · simp [lookupJob, hp] at h
    · simp [lookupJob, hp] at h ⊢
      exact ih h

theorem lookupJob_append_ne (js : List (String × Job)) (id id' : String)
    (j : Job) (h : id' ≠ id) :
    lookupJob (js ++ [(id, j)]) id' = lookupJob js id' := by
  induction js with
  | nil => simp [lookupJob, Ne.symm h]
  | cons p rest ih =>
    by_cases hp : p.1 = id' <;> simp [lookupJob, hp, ih]

theorem countNonTerminal_append (js js2 : List (String × Job)) :
    countNonTerminal (js ++ js2) =
      countNonTerminal js + countNonTerminal js2 := by
  simp [countNonTerminal]

theorem mem_addPath (fs : List String) (p q : String) :
    q ∈ addPath fs p ↔ q ∈ fs ∨ q = p := by
  by_cases h : p ∈ fs
  · simp only [addPath, if_pos h]
    exact ⟨Or.inl, fun hq => hq.elim id (fun he => he ▸ h)⟩
  · simp [addPath, if_neg h]

theorem addPath_nodup (fs : List String) (p : String) (h : fs.Nodup) :
    (addPath fs p).Nodup := by
  by_cases hp : p ∈ fs
  · simpa [addPath, hp] using h
  · rw [addPath, if_neg hp, List.nodup_append]
    refine ⟨h, List.nodup_singleton p, fun a ha hb => ?_⟩
    rw [List.mem_singleton] at hb
    exact hp (hb ▸ ha)

theorem mem_foldl_addPath (g : String → String) (names : List String) :
    ∀ acc q, q ∈ acc → q ∈ names.foldl (fun a f => addPath a (g f)) acc := by
  induction names with
  | nil => intro acc q h; exact h
  | cons n rest ih =>
    intro acc q h
    exact ih _ _ ((mem_addPath _ _ _).mpr (Or.inl h))

theorem nodup_foldl_addPath (g : String → String) (names : List String) :
    ∀ acc, acc.Nodup → (names.foldl (fun a f => addPath a (g f)) acc).Nodup := by
  induction names with
  | nil => intro acc h; exact h
  | cons n rest ih => intro acc h; exact ih _ (addPath_nodup _ _ h)

theorem mem_applyEngineOutputs (fs : List String) (id : String)
    (sf : Option (List String)) (q : String) (h : q ∈ fs) :
    q ∈ applyEngineOutputs fs id sf := by
  cases sf with
  | none => exact h
  | some names =>
    exact mem_foldl_addPath _ names _ _ ((mem_addPath _ _ _).mpr (Or.inl h))

theorem applyEngineOutputs_nodup (fs : List String) (id : String)
    (sf : Option (List String)) (h : fs.Nodup) :
    (applyEngineOutputs fs id sf).Nodup := by
  cases sf with
  | none => exact h
  | some names => exact nodup_foldl_addPath _ names _ (addPath_nodup _ _ h)


theorem run_separation_run_frame (st : ServerState) (id ip : String)
    (o : EngineOracle) (evs : List EngineEvent) :
    (run_separation_run st id ip o evs).1.separator_instance =
        st.separator_instance ∧
      (run_separation_run st id ip o evs).1.current_model = st.current_model ∧
      (run_separation_run st id ip o evs).1.is_processing = st.is_processing ∧
      (run_separation_run st id ip o evs).2 = evs := by
  unfold run_separation_run
  cases o.runFails with
  | some m => simp [setJobProgress, setJobError]
  | none =>
    simp only [setJobProgress, setJobError]
    repeat' split
    all_goals simp

theorem run_separation_run_lookup_ne (st : ServerState) (id ip id' : String)
    (o : EngineOracle) (evs : List EngineEvent) (h : id' ≠ id) :
    lookupJob (run_separation_run st id ip o evs).1.jobs id' =
      lookupJob st.jobs id' := by
  unfold run_separation_run
  cases o.runFails with
  | some m =>
    simp [setJobProgress, setJobError, updateJob_updateJob,
      lookupJob_updateJob_ne _ _ _ _ h]
  | none =>
    simp only [setJobProgress, setJobError]
    repeat' split
    all_goals
      simp [updateJob_updateJob, lookupJob_updateJob_ne _ _ _ _ h]

theorem run_separation_run_keys (st : ServerState) (id ip : String)
    (o : EngineOracle) (evs : List EngineEvent) :
    jobKeys (run_separation_run st id ip o evs).1.jobs = jobKeys st.jobs := by
  unfold run_separation_run
  cases o.runFails with
  | some m => simp [setJobProgress, setJobError, jobKeys_updateJob]
  | none =>
    simp only [setJobProgress, setJobError]
    repeat' split
    all_goals simp [jobKeys_updateJob]

theorem run_separation_run_runFail (st : ServerState) (id ip : String)
    (o : EngineOracle) (evs : List EngineEvent) (m : String)
    (hm : o.runFails = some m) :
    (run_separation_run st id ip o evs).1.jobs =
        updateJob st.jobs id
          (fun j => { j with progress := 30, status := .error,
                             error := some m }) ∧
      (run_separation_run st id ip o evs).1.fs = st.fs := by
  unfold run_separation_run
  rw [hm]
  simp [setJobProgress, setJobError, updateJob_updateJob]

theorem run_separation_run_success (st : ServerState) (id ip : String)
    (o : EngineOracle) (evs : List EngineEvent)
    (hr : o.runFails = none) (hrm : o.removeFails = none)
    (hip : ip ∈ st.fs) (hnd : st.fs.Nodup) :
    (lookupJob (run_separation_run st id ip o evs).1.jobs id).map Job.status =
        (lookupJob st.jobs id).map (fun _ => JobStatus.complete) ∧
      ip ∉ (run_separation_run st id ip o evs).1.fs := by
  have hip4 : ip ∈ applyEngineOutputs st.fs id o.stemFiles :=
    mem_applyEngineOutputs _ _ _ _ hip
  have hnd4 : (applyEngineOutputs st.fs id o.stemFiles).Nodup :=
    applyEngineOutputs_nodup _ _ _ hnd
  unfold run_separation_run
  rw [hr, hrm]
  simp only [setJobProgress, setJobError]
  repeat' split
  all_goals
    simp_all [updateJob_updateJob, lookupJob_updateJob_self,
      hnd4.not_mem_erase]
  all_goals (cases lookupJob st.jobs id <;> simp)

theorem run_separation_run_removeFail (st : ServerState) (id ip : String)
    (o : EngineOracle) (evs : List EngineEvent) (m : String)
    (hr : o.runFails = none) (hrm : o.removeFails = some m)
    (hip : ip ∈ st.fs) :
    ((lookupJob (run_separation_run st id ip o evs).1.jobs id).map Job.status =
        (lookupJob st.jobs id).map (fun _ => JobStatus.error)) ∧
      ((lookupJob (run_separation_run st id ip o evs).1.jobs id).map Job.error =
        (lookupJob st.jobs id).map (fun _ => some m)) ∧
      ip ∈ (run_separation_run st id ip o evs).1.fs := by
  have hip4 : ip ∈ applyEngineOutputs st.fs id o.stemFiles :=
    mem_applyEngineOutputs _ _ _ _ hip
  unfold run_separation_run
  rw [hr, hrm]
  simp only [setJobProgress, setJobError]
  repeat' split
  all_goals
    simp_all [updateJob_updateJob, lookupJob_updateJob_self]
  all_goals (cases lookupJob st.jobs id <;> simp)

theorem lookupJob_start (st : ServerState) (id : String) (j : Job)
    (h : lookupJob st.jobs id = some j) :
    lookupJob (run_separation_start st id).jobs id =
      some { j with status := .processing, progress := 5,
                    queue_position := 0 } := by
  simp [run_separation_start, lookupJob_updateJob_self, h]

theorem run_separation_runFail (st : ServerState) (id : String)
    (o : EngineOracle) (j : Job) (m : String)
    (h : lookupJob st.jobs id = some j)
    (hcf : o.constructFails = none) (hm : o.runFails = some m) :
    lookupJob (run_separation st id o).jobs id =
        some { j with status := .error, progress := 30, queue_position := 0,
                      error := some m } ∧
      (run_separation st id o).fs = st.fs := by
  have hS := lookupJob_start st id j h
  unfold run_separation run_separation_ev run_separation_rest
  rw [hS]
  simp only [hcf, run_separation_start]
  repeat' split
  all_goals
    simp [run_separation_run_runFail _ _ _ _ _ _ hm, setJobProgress,
      updateJob_updateJob, lookupJob_updateJob_self, h]

theorem run_separation_constructFail (st : ServerState) (id : String)
    (o : EngineOracle) (j : Job) (m : String)
    (h : lookupJob st.jobs id = some j)
    (hmiss : st.separator_instance = false ∨
      st.current_model ≠ some (mkModel j.stems))
    (hc : o.constructFails = some m) :
    lookupJob (run_separation st id o).jobs id =
        some { j with status := .error, progress := 10, queue_position := 0,
                      error := some m } ∧
      (run_separation st id o).fs = st.fs ∧
      (run_separation st id o).separator_instance = false := by
  have hS := lookupJob_start st id j h
  unfold run_separation run_separation_ev run_separation_rest
  rw [hS]
  simp only [hc, run_separation_start]
  repeat' split
  all_goals
    simp_all [setJobError, setJobProgress, updateJob_updateJob,
      lookupJob_updateJob_self, h]
  rename_i hcond
  rcases hmiss with h1 | h1
  · exact h1
  · cases hsep : st.separator_instance with
    | false => rfl
    | true => exact absurd (hcond hsep) h1

theorem run_separation_success (st : ServerState) (id : String)
    (o : EngineOracle) (j : Job)
    (h : lookupJob st.jobs id = some j)
    (hcf : o.constructFails = none) (hrf : o.runFails = none)
    (hrm : o.removeFails = none)
    (hip : j.input_path ∈ st.fs) (hnd : st.fs.Nodup) :
    (lookupJob (run_separation st id o).jobs id).map Job.status =
        some JobStatus.complete ∧
      j.input_path ∉ (run_separation st id o).fs := by
  have hS := lookupJob_start st id j h
  unfold run_separation run_separation_ev run_separation_rest
  rw [hS]
  simp only [hcf, run_separation_start]
  repeat' split
  all_goals
    simp_all [run_separation_run_success, hrf, hrm, hip, hnd,
      setJobProgress, updateJob_updateJob, lookupJob_updateJob_self, h]

theorem run_separation_removeFail (st : ServerState) (id : String)
    (o : EngineOracle) (j : Job) (m : String)
    (h : lookupJob st.jobs id = some j)
    (hcf : o.constructFails = none) (hrf : o.runFails = none)
    (hrm : o.removeFails = some m)
    (hip : j.input_path ∈ st.fs) :
    (lookupJob (run_separation st id o).jobs id).map Job.status =
        some JobStatus.error ∧
      (lookupJob (run_separation st id o).jobs id).map Job.error =
        some (some m) ∧
      j.input_path ∈ (run_separation st id o).fs := by
  have hS := lookupJob_start st id j h
  unfold run_separation run_separation_ev run_separation_rest
  rw [hS]
  simp only [hcf, run_separation_start]
  repeat' split
  all_goals
    simp_all [run_separation_run_removeFail, hrf, hrm, hip,
      setJobProgress, updateJob_updateJob, lookupJob_updateJob_self, h]

theorem run_separation_lookup_ne (st : ServerState) (id id' : String)
    (o : EngineOracle) (hne : id' ≠ id) :
    lookupJob (run_separation st id o).jobs id' = lookupJob st.jobs id' := by
  unfold run_separation run_separation_ev run_separation_rest
  split
  · simp [run_separation_start, lookupJob_updateJob_ne, hne]
  · simp only [run_separation_start]
    repeat' split
    all_goals
      simp_all [run_separation_run_lookup_ne, hne, setJobError,
        setJobProgress, updateJob_updateJob, lookupJob_updateJob_ne]

theorem run_separation_keys (st : ServerState) (id : String)
    (o : EngineOracle) :
    jobKeys (run_separation st id o).jobs = jobKeys st.jobs := by
  unfold run_separation run_separation_ev run_separation_rest
  split
  · simp [run_separation_start, jobKeys_updateJob]
  · simp only [run_separation_start]
    repeat' split
    all_goals
      simp_all [run_separation_run_keys, setJobError, setJobProgress,
        jobKeys_updateJob]

theorem liveOf_le_one (st : ServerState) : liveOf st ≤ 1 := by
  unfold liveOf; split <;> simp

theorem liveCount_append (c : Nat) (l1 l2 : List EngineEvent) :
    liveCount c (l1 ++ l2) = liveCount (liveCount c l1) l2 := by
  induction l1 generalizing c with
  | nil => rfl
  | cons e rest ih => cases e <;> simp [liveCount, ih]

theorem liveCount_take_append (c : Nat) (l1 l2 : List EngineEvent)
    (h1 : ∀ n, liveCount c (l1.take n) ≤ 1)
    (h2 : ∀ n, liveCount (liveCount c l1) (l2.take n) ≤ 1) :
    ∀ n, liveCount c ((l1 ++ l2).take n) ≤ 1 := by
  intro n
  rw [List.take_append_eq_append_take, liveCount_append]
  by_cases hn : n ≤ l1.length
  · have h0 : n - l1.length = 0 := Nat.sub_eq_zero_of_le hn
    rw [h0]
    simpa [liveCount] using h1 n
  · rw [List.take_of_length_le (Nat.le_of_not_le hn)]
    exact h2 (n - l1.length)

theorem run_separation_events_cases (st : ServerState) (id : String)
    (o : EngineOracle) :
    ((run_separation_ev st id o).2 = [] ∧
        liveOf (run_separation st id o) = liveOf st) ∨
      (∃ a, (run_separation_ev st id o).2 = [EngineEvent.release a] ∧
        st.separator_instance = true ∧ liveOf (run_separation st id o) = 0) ∨
      (∃ a b, (run_separation_ev st id o).2 =
          [EngineEvent.release a, EngineEvent.construct b] ∧
        st.separator_instance = true ∧ liveOf (run_separation st id o) = 1) ∨
      (∃ b, (run_separation_ev st id o).2 = [EngineEvent.construct b] ∧
        st.separator_instance = false ∧ liveOf (run_separation st id o) = 1) := by
  unfold run_separation run_separation_ev run_separation_rest
  split
  · exact Or.inl ⟨rfl, rfl⟩
  · simp only [run_separation_start]
    repeat' split
    all_goals
      simp_all [liveOf, run_separation_run_frame, setJobError, setJobProgress]
    rename_i himp hdisj hcf2
    rcases hdisj with h1 | h1
    · exact h1
    · cases hsep : st.separator_instance with
      | false => rfl
      | true => exact absurd (himp hsep) h1

theorem run_separation_live (st : ServerState) (id : String)
    (o : EngineOracle) :
    (∀ n, liveCount (liveOf st) ((run_separation_ev st id o).2.take n) ≤ 1) ∧
      liveCount (liveOf st) (run_separation_ev st id o).2 =
        liveOf (run_separation st id o) := by
  rcases run_separation_events_cases st id o with
    ⟨he, hl⟩ | ⟨a, he, hs, hl⟩ | ⟨a, b, he, hs, hl⟩ | ⟨b, he, hs, hl⟩
  · rw [he, hl]
    exact ⟨fun n => by simpa [liveCount] using liveOf_le_one st, rfl⟩
  · have hc : liveOf st = 1 := by simp [liveOf, hs]
    rw [he, hl, hc]
    refine ⟨fun n => ?_, rfl⟩
    cases n <;> simp [liveCount]
  · have hc : liveOf st = 1 := by simp [liveOf, hs]
    rw [he, hl, hc]
    refine ⟨fun n => ?_, rfl⟩
    rcases n with _ | (_ | k) <;> simp [liveCount, List.take_succ_cons]
  · have hc : liveOf st = 0 := by simp [liveOf, hs]
    rw [he, hl, hc]
    refine ⟨fun n => ?_, rfl⟩
    cases n <;> simp [liveCount]

theorem liveOf_set_jobs (st : ServerState) (js : List (String × Job)) :
    liveOf { st with jobs := js } = liveOf st := rfl

theorem process_queue_live (fuel : Nat) (orc : String → EngineOracle)
    (st : ServerState) :
    ∀ n, liveCount (liveOf st) ((process_queue_ev fuel orc st).2.take n) ≤ 1 := by
  induction fuel generalizing st with
  | zero =>
    intro n
    simpa [process_queue_ev, liveCount] using liveOf_le_one st
  | succ fuel ih =>
    intro n
    unfold process_queue_ev
    cases hq : findQueued st.jobs with
    | none => simpa [liveCount] using liveOf_le_one st
    | some job_id =>
      simp only []
      refine liveCount_take_append _ _ _
        (run_separation_live st job_id (orc job_id)).1 ?_ n
      rw [(run_separation_live st job_id (orc job_id)).2]
      exact fun k => by
        simpa [liveOf_set_jobs] using
          ih { (run_separation_ev st job_id (orc job_id)).1 with
                jobs := recomputePositions
                  (run_separation_ev st job_id (orc job_id)).1.jobs } k

theorem run_separation_acquire (st : ServerState) (id : String)
    (o : EngineOracle) (j : Job)
    (h : lookupJob st.jobs id = some j) (hcf : o.constructFails = none) :
    ((run_separation st id o).separator_instance,
        (run_separation st id o).current_model,
        (run_separation_ev st id o).2) =
      acquireStep st.separator_instance st.current_model (mkModel j.stems) := by
  have hS := lookupJob_start st id j h
  unfold run_separation run_separation_ev run_separation_rest
  rw [hS]
  simp only [hcf, run_separation_start, acquireStep]
  repeat' split
  all_goals
    simp_all [run_separation_run_frame, setJobError, setJobProgress]

theorem acquireStep_hit (m : String) :
    acquireStep true (some m) m = (true, some m, []) := by
  simp [acquireStep]

theorem acquireStep_change (c m : String) (h : c ≠ m) :
    acquireStep true (some c) m =
      (true, some m, [EngineEvent.release c, EngineEvent.construct m]) := by
  simp [acquireStep, h]

theorem acquireStep_cold (m : String) :
    acquireStep false none m = (true, some m, [EngineEvent.construct m]) := by
  simp [acquireStep]

theorem constructCount_append (l1 l2 : List EngineEvent) :
    constructCount (l1 ++ l2) = constructCount l1 + constructCount l2 := by
  induction l1 with
  | nil => simp [constructCount]
  | cons e rest ih =>
    cases e with
    | release a => simp [constructCount, ih]
    | construct a => simp [constructCount, ih]; omega

theorem acquireRun_count_live (ms : List String) :
    ∀ c : String,
      constructCount (acquireRun true (some c) ms).2.2 =
        profileChanges (some c) ms := by
  induction ms with
  | nil => intro c; rfl
  | cons m rest ih =>
    intro c
    by_cases h : c = m
    · subst h
      simp [acquireRun, acquireStep_hit, profileChanges, constructCount, ih]
    · simp [acquireRun, acquireStep_change c m h, profileChanges,
        constructCount, constructCount_append, ih, h]
      omega

theorem acquireRun_cold (ms : List String) :
    constructCount (acquireRun false none ms).2.2 = profileChanges none ms := by
  cases ms with
  | nil => rfl
  | cons m rest =>
    simp [acquireRun, acquireStep_cold, profileChanges, constructCount,
      constructCount_append, acquireRun_count_live]
    omega

theorem separate_audio_noFile (st : ServerState) (req : SubmitReq)
    (id : String) (now : Nat) (hf : req.hasFile = false) :
    separate_audio st req id now = (st, .err 400 "No file provided") := by
  simp [separate_audio, hf]

theorem separate_audio_rejected (st : ServerState) (req : SubmitReq)
    (id : String) (now : Nat) (d : Nat) (hf : req.hasFile = true)
    (hdur : req.duration = some d) (hgt : d > MAX_DURATION_SECONDS) :
    separate_audio st req id now =
      ({ st with fs := addPath (addPath st.fs (jobDir id)) (inputPathOf id) },
        .err 400 (tooLongMsg d)) := by
  simp [separate_audio, hf, hdur, hgt]

theorem separate_audio_accepted (st : ServerState) (req : SubmitReq)
    (id : String) (now : Nat) (hf : req.hasFile = true)
    (hd : durationAdmits req = true) :
    separate_audio st req id now =
      ({ st with
          jobs := insertOD st.jobs id
            { status := .queued, progress := 0,
              stems := normalizeStems req.stemsParam, files := [],
              queue_position := countNonTerminal st.jobs, created_at := now,
              input_path := inputPathOf id, error := none },
          fs := addPath (addPath st.fs (jobDir id)) (inputPathOf id),
          is_processing := true },
        .okSubmit id (countNonTerminal st.jobs) (normalizeStems req.stemsParam)
          (submitMessage (countNonTerminal st.jobs))) := by
  cases hdur : req.duration with
  | none => simp [separate_audio, separate_audio_enqueue, hf, hdur]
  | some d =>
    have hle : ¬ (d > MAX_DURATION_SECONDS) := by
      simp [durationAdmits, hdur] at hd
      omega
    simp [separate_audio, separate_audio_enqueue, hf, hdur, hle]

theorem countNonTerminal_insertOD_fresh (js : List (String × Job))
    (id : String) (j : Job) (hfresh : lookupJob js id = none)
    (hq : statusNonTerminal j.status = true) :
    countNonTerminal (insertOD js id j) = countNonTerminal js + 1 := by
  rw [insertOD_fresh js id j hfresh, countNonTerminal_append]
  simp [countNonTerminal, hq]

theorem jobKeys_insertOD_fresh (js : List (String × Job)) (id : String)
    (j : Job) (hfresh : lookupJob js id = none) :
    jobKeys (insertOD js id j) = jobKeys js ++ [id] := by
  rw [insertOD_fresh js id j hfresh]
  simp [jobKeys]

theorem submitList_positions (rs : List (SubmitReq × String × Nat)) :
    ∀ (st : ServerState) (c : Nat),
      countNonTerminal st.jobs = c →
      (∀ r ∈ rs, r.1.hasFile = true ∧ durationAdmits r.1 = true) →
      (∀ r ∈ rs, lookupJob st.jobs r.2.1 = none) →
      (rs.map (fun r => r.2.1)).Nodup →
      (submitList st rs).2.map responsePos =
        (List.range' c rs.length).map some := by
  induction rs with
  | nil => intro st c hc hacc hfresh hnd; simp [submitList]
  | cons r rest ih =>
    intro st c hc hacc hfresh hnd
    obtain ⟨req, id, now⟩ := r
    have hr := hacc _ (List.mem_cons_self _ _)
    have hfr : lookupJob st.jobs id = none := hfresh _ (List.mem_cons_self _ _)
    have hstep := separate_audio_accepted st req id now hr.1 hr.2
    have hnotin : id ∉ rest.map (fun r => r.2.1) :=
      (List.nodup_cons.mp (by simpa using hnd)).1
    simp only [submitList, hstep, List.length_cons, List.range'_succ,
      List.map_cons, responsePos, hc]
    refine congrArg (fun l => some c :: l) ?_
    have hcount : countNonTerminal (insertOD st.jobs id
        { status := .queued, progress := 0,
          stems := normalizeStems req.stemsParam, files := [],
          queue_position := c, created_at := now,
          input_path := inputPathOf id, error := none }) = c + 1 := by
      rw [countNonTerminal_insertOD_fresh _ _ _ hfr (by rfl), hc]
    refine ih _ (c + 1) hcount
      (fun r hr2 => hacc r (List.mem_cons_of_mem _ hr2))
      (fun r hr2 => ?_)
      ((List.nodup_cons.mp (by simpa using hnd)).2)
    have hne : r.2.1 ≠ id := fun he => hnotin (he ▸ List.mem_map_of_mem _ hr2)
    rw [insertOD_fresh _ _ _ hfr, lookupJob_append_ne _ _ _ _ hne]
    exact hfresh r (List.mem_cons_of_mem _ hr2)

theorem recomputePositionsAux_pending (js : List (String × Job)) :
    ∀ pos,
      pendingPositions (recomputePositionsAux pos js) =
          List.range' pos (pendingJobs js).length ∧
        (pendingJobs (recomputePositionsAux pos js)).length =
          (pendingJobs js).length := by
  induction js with
  | nil => intro pos; simp [recomputePositionsAux, pendingPositions, pendingJobs]
  | cons p rest ih =>
    intro pos
    by_cases h : isQueued p.2.status = true
    · have h1 := (ih (pos + 1)).1
      have h2 := (ih (pos + 1)).2
      unfold pendingPositions pendingJobs at h1 h2 ⊢
      simp [recomputePositionsAux, h, List.range'_succ, h1, h2]
    · simp only [Bool.not_eq_true] at h
      have h1 := (ih pos).1
      have h2 := (ih pos).2
      unfold pendingPositions pendingJobs at h1 h2 ⊢
      simp [recomputePositionsAux, h, h1, h2]

theorem recomputePositions_dense (js : List (String × Job)) :
    pendingDense (recomputePositions js) := by
  unfold pendingDense recomputePositions
  rw [(recomputePositionsAux_pending js 0).1,
    (recomputePositionsAux_pending js 0).2]
  exact (List.range_eq_range' _).symm

theorem recomputePositions_shape (js : List (String × Job)) :
    (recomputePositions js).map (fun p => (p.1, p.2.status)) =
      js.map (fun p => (p.1, p.2.status)) := by
  unfold recomputePositions
  generalize 0 = pos
  induction js generalizing pos with
  | nil => rfl
  | cons p rest ih =>
    by_cases h : isQueued p.2.status = true <;>
      simp [recomputePositionsAux, h, ih]

theorem recomputePositions_keys (js : List (String × Job)) :
    jobKeys (recomputePositions js) = jobKeys js := by
  unfold recomputePositions
  generalize 0 = pos
  induction js generalizing pos with
  | nil => rfl
  | cons p rest ih =>
    by_cases h : isQueued p.2.status = true <;>
      simp [recomputePositionsAux, jobKeys, h] <;> simpa [jobKeys] using ih _

theorem pendingJobs_nil_of_findQueued_none (js : List (String × Job))
    (h : findQueued js = none) : pendingJobs js = [] := by
  unfold findQueued at h
  rw [Option.map_eq_none'] at h
  rw [List.find?_eq_none] at h
  unfold pendingJobs
  rw [List.filter_eq_nil_iff]
  exact h

theorem pendingDense_of_no_queued (js : List (String × Job))
    (h : findQueued js = none) : pendingDense js := by
  unfold pendingDense pendingPositions
  rw [pendingJobs_nil_of_findQueued_none js h]
  rfl

theorem process_queue_dense (fuel : Nat) (orc : String → EngineOracle)
    (st : ServerState) :
    pendingDense (process_queue (fuel + 1) orc st).jobs := by
  induction fuel generalizing st with
  | zero =>
    unfold process_queue process_queue_ev
    cases hq : findQueued st.jobs with
    | none => exact pendingDense_of_no_queued _ hq
    | some id =>
      simp only [process_queue_ev]
      exact recomputePositions_dense _
  | succ fuel ih =>
    unfold process_queue process_queue_ev
    cases hq : findQueued st.jobs with
    | none => exact pendingDense_of_no_queued _ hq
    | some id =>
      simp only []
      exact ih _

theorem jobKeys_insertOD (js : List (String × Job)) (id : String) (j : Job) :
    jobKeys (insertOD js id j) = jobKeys js ∨
      jobKeys (insertOD js id j) = jobKeys js ++ [id] := by
  unfold insertOD
  split
  · exact Or.inl (jobKeys_updateJob js id _)
  · exact Or.inr (by simp [jobKeys])

theorem separate_audio_keys (st : ServerState) (req : SubmitReq)
    (id : String) (now : Nat) :
    jobKeys (separate_audio st req id now).1.jobs = jobKeys st.jobs ∨
      jobKeys (separate_audio st req id now).1.jobs = jobKeys st.jobs ++ [id] := by
  unfold separate_audio separate_audio_enqueue
  repeat' split
  all_goals
    first
    | exact Or.inl rfl
    | exact jobKeys_insertOD st.jobs id _

theorem process_queue_keys (fuel : Nat) (orc : String → EngineOracle)
    (st : ServerState) :
    jobKeys (process_queue fuel orc st).jobs = jobKeys st.jobs := by
  induction fuel generalizing st with
  | zero => rfl
  | succ fuel ih =>
    unfold process_queue process_queue_ev
    cases hq : findQueued st.jobs with
    | none => rfl
    | some id =>
      simp only []
      calc jobKeys (process_queue fuel orc _).jobs
          = jobKeys (recomputePositions (run_separation st id (orc id)).jobs) :=
            ih _
        _ = jobKeys (run_separation st id (orc id)).jobs :=
            recomputePositions_keys _
        _ = jobKeys st.jobs := run_separation_keys st id (orc id)

theorem lookupJob_insertOD_self (js : List (String × Job)) (id : String)
    (j : Job) : lookupJob (insertOD js id j) id = some j := by
  unfold insertOD
  split
  · rename_i h
    rw [lookupJob_updateJob_self]
    cases hx : lookupJob js id with
    | some v => rfl
    | none => rw [hx] at h; simp at h
  · rename_i h
    apply lookupJob_append_fresh
    cases hx : lookupJob js id with
    | none => rfl
    | some v => rw [hx] at h; simp at h

theorem run_separation_hit (st : ServerState) (id : String)
    (o : EngineOracle) (j : Job)
    (h : lookupJob st.jobs id = some j)
    (hl : st.separator_instance = true)
    (hc : st.current_model = some (mkModel j.stems)) :
    ((run_separation st id o).separator_instance,
        (run_separation st id o).current_model,
        (run_separation_ev st id o).2) =
      (true, some (mkModel j.stems), []) := by
  have hS := lookupJob_start st id j h
  unfold run_separation run_separation_ev run_separation_rest
  rw [hS]
  simp only [run_separation_start, hl, hc]
  repeat' split
  all_goals
    simp_all [run_separation_run_frame, setJobError, setJobProgress]


/-! The claims. -/

/-- C6: a submission whose measured duration strictly exceeds
`MAX_DURATION_SECONDS` is rejected with HTTP 400 and a message naming the
limit, and no job record is created; a submission whose duration cannot be
measured is admitted and a `queued` (Pending) job is created. -/
theorem C6_duration_admission :
    (∀ (st : ServerState) (req : SubmitReq) (id : String) (now d : Nat),
        req.hasFile = true → req.duration = some d →
        d > MAX_DURATION_SECONDS →
        (separate_audio st req id now).2 = .err 400 (tooLongMsg d) ∧
          (separate_audio st req id now).1.jobs = st.jobs) ∧
      (tooLongMsg 700 =
        "Audio too long (700s). Max is 600s (5 min). Please trim your file.") ∧
      (∀ (st : ServerState) (req : SubmitReq) (id : String) (now : Nat),
        req.hasFile = true → req.duration = none →
        (separate_audio st req id now).2 =
            .okSubmit id (countNonTerminal st.jobs)
              (normalizeStems req.stemsParam)
              (submitMessage (countNonTerminal st.jobs)) ∧
          lookupJob (separate_audio st req id now).1.jobs id =
            some { status := .queued, progress := 0,
                   stems := normalizeStems req.stemsParam, files := [],
                   queue_position := countNonTerminal st.jobs,
                   created_at := now, input_path := inputPathOf id,
                   error := none }) := by
  refine ⟨fun st req id now d h1 h2 h3 => ?_, by decide,
    fun st req id now h1 h2 => ?_⟩
  · rw [separate_audio_rejected st req id now d h1 h2 h3]
    exact ⟨rfl, rfl⟩
  · have hadm : durationAdmits req = true := by simp [durationAdmits, h2]
    rw [separate_audio_accepted st req id now h1 hadm]
    exact ⟨rfl, lookupJob_insertOD_self _ _ _⟩

/-- C6 witness: a 700-second submission against the 600-second ceiling is
rejected with the message naming the limit and no job; an unmeasurable
submission is admitted as `queued`. -/
theorem C6_witness :
    ((true : Bool) = true ∧ (some 700 : Option Nat) = some 700 ∧
        700 > MAX_DURATION_SECONDS ∧
      ((separate_audio initialState
          { hasFile := true, stemsParam := some "2", duration := some 700 }
          "W" 4).2 = .err 400 (tooLongMsg 700) ∧
        (separate_audio initialState
          { hasFile := true, stemsParam := some "2", duration := some 700 }
          "W" 4).1.jobs = initialState.jobs)) ∧
      ((separate_audio initialState
          { hasFile := true, stemsParam := some "2", duration := none }
          "V" 6).2 = .okSubmit "V" (countNonTerminal initialState.jobs)
            (normalizeStems (some "2"))
            (submitMessage (countNonTerminal initialState.jobs)) ∧
        lookupJob (separate_audio initialState
          { hasFile := true, stemsParam := some "2", duration := none }
          "V" 6).1.jobs "V" =
          some { status := .queued, progress := 0,
                 stems := normalizeStems (some "2"), files := [],
                 queue_position := countNonTerminal initialState.jobs,
                 created_at := 6, input_path := inputPathOf "V",
                 error := none }) :=
  ⟨⟨rfl, rfl, by decide,
      C6_duration_admission.1 initialState
        { hasFile := true, stemsParam := some "2", duration := some 700 }
        "W" 4 700 rfl rfl (by decide)⟩,
    C6_duration_admission.2.2 initialState
      { hasFile := true, stemsParam := some "2", duration := none }
      "V" 6 rfl rfl⟩

/-- C10: a submission rejected for excessive duration leaves the job store
(and the rest of the module state) unchanged, but the job directory and the
saved input file — created before the duration check — remain on disk. -/
theorem C10_rejection_leaves_artifacts :
    ∀ (st : ServerState) (req : SubmitReq) (id : String) (now d : Nat),
      req.hasFile = true → req.duration = some d →
      d > MAX_DURATION_SECONDS →
      (separate_audio st req id now).1.jobs = st.jobs ∧
        (separate_audio st req id now).2 = .err 400 (tooLongMsg d) ∧
        jobDir id ∈ (separate_audio st req id now).1.fs ∧
        inputPathOf id ∈ (separate_audio st req id now).1.fs ∧
        (∀ p ∈ st.fs, p ∈ (separate_audio st req id now).1.fs) ∧
        (separate_audio st req id now).1.is_processing = st.is_processing ∧
        (separate_audio st req id now).1.separator_instance =
          st.separator_instance ∧
        (separate_audio st req id now).1.current_model = st.current_model := by
  intro st req id now d h1 h2 h3
  rw [separate_audio_rejected st req id now d h1 h2 h3]
  refine ⟨rfl, rfl, ?_, ?_, ?_, rfl, rfl, rfl⟩
  · exact (mem_addPath _ _ _).mpr
      (Or.inl ((mem_addPath _ _ _).mpr (Or.inr rfl)))
  · exact (mem_addPath _ _ _).mpr (Or.inr rfl)
  · intro p hp
    exact (mem_addPath _ _ _).mpr
      (Or.inl ((mem_addPath _ _ _).mpr (Or.inl hp)))

/-- C10 witness: the concrete 700-second rejection leaves the store empty
and the uploaded artifacts on disk. -/
theorem C10_witness :
    (true : Bool) = true ∧ (some 700 : Option Nat) = some 700 ∧
      700 > MAX_DURATION_SECONDS ∧
      ((separate_audio initialState
          { hasFile := true, stemsParam := some "2", duration := some 700 }
          "R" 7).1.jobs = initialState.jobs ∧
        (separate_audio initialState
          { hasFile := true, stemsParam := some "2", duration := some 700 }
          "R" 7).2 = .err 400 (tooLongMsg 700) ∧
        jobDir "R" ∈ (separate_audio initialState
          { hasFile := true, stemsParam := some "2", duration := some 700 }
          "R" 7).1.fs ∧
        inputPathOf "R" ∈ (separate_audio initialState
          { hasFile := true, stemsParam := some "2", duration := some 700 }
          "R" 7).1.fs) := by
  have h := C10_rejection_leaves_artifacts initialState
    { hasFile := true, stemsParam := some "2", duration := some 700 }
    "R" 7 700 rfl rfl (by decide)
  exact ⟨rfl, rfl, by decide, h.1, h.2.1, h.2.2.1, h.2.2.2.1⟩

/-- C9: an accepted submission is assigned `queue_position` equal to the
number of jobs then non-terminal (`queued` or `processing`); consequently,
over any sequence of accepted submissions with fresh ids starting from a
store with no non-terminal jobs (and no completions in between), the K-th
submission (1-indexed) is answered with `queue_position = K-1`. -/
theorem C9_fifo_positions :
    (∀ (st : ServerState) (req : SubmitReq) (id : String) (now : Nat),
        req.hasFile = true → durationAdmits req = true →
        (separate_audio st req id now).2 =
            .okSubmit id (countNonTerminal st.jobs)
              (normalizeStems req.stemsParam)
              (submitMessage (countNonTerminal st.jobs)) ∧
          (lookupJob (separate_audio st req id now).1.jobs id).map
              (fun j => j.queue_position) =
            some (countNonTerminal st.jobs)) ∧
      (∀ (st : ServerState) (rs : List (SubmitReq × String × Nat)),
        countNonTerminal st.jobs = 0 →
        (∀ r ∈ rs, r.1.hasFile = true ∧ durationAdmits r.1 = true) →
        (∀ r ∈ rs, lookupJob st.jobs r.2.1 = none) →
        (rs.map (fun r => r.2.1)).Nodup →
        (submitList st rs).2.map responsePos =
          (List.range rs.length).map some) := by
  constructor
  · intro st req id now h1 h2
    rw [separate_audio_accepted st req id now h1 h2]
    exact ⟨rfl, by rw [lookupJob_insertOD_self]; rfl⟩
  · intro st rs hc hacc hfresh hnd
    rw [List.range_eq_range' rs.length]
    exact submitList_positions rs st 0 hc hacc hfresh hnd

/-- C9 witness: three back-to-back submissions from the empty store receive
queue positions 0, 1, 2. -/
theorem C9_witness :
    countNonTerminal initialState.jobs = 0 ∧
      (submitList initialState
          [({ hasFile := true, stemsParam := some "2", duration := some 100 },
              "A", 1),
            ({ hasFile := true, stemsParam := some "2", duration := some 100 },
              "B", 2),
            ({ hasFile := true, stemsParam := some "2", duration := some 100 },
              "C", 3)]).2.map responsePos =
        (List.range 3).map some :=
  ⟨rfl,
    C9_fifo_positions.2 initialState _ rfl (by decide) (by decide) (by decide)⟩

/-- C8 counterexample: the unsupported profile value "7" is neither
downgraded nor rejected — the submission is accepted and a `queued` job is
created with `stems = "7"` (it will only fail later, at engine
construction), refuting both the downgrade-to-nearest-supported and the
reject-malformed halves of the claim. -/
theorem C8_counterexample :
    (separate_audio initialState
        { hasFile := true, stemsParam := some "7", duration := some 10 }
        "J" 5).2 = ApiResult.okSubmit "J" 0 "7" "Processing now..." ∧
      (lookupJob (separate_audio initialState
        { hasFile := true, stemsParam := some "7", duration := some 10 }
        "J" 5).1.jobs "J").map Job.stems = some "7" ∧
      (separate_audio initialState
        { hasFile := true, stemsParam := some "7", duration := some 10 }
        "J" 5).1.jobs ≠ initialState.jobs := by
  refine ⟨by decide, by decide, by decide⟩

/-- C8 amended: submit reads the profile with default "2" and applies a
single downgrade rule — the value "5" becomes "4"; every other value,
supported or not, passes through unchanged, and no profile value is ever
rejected: any submission with a file and an admissible duration creates a
`queued` job carrying the normalized value. -/
theorem C8_amended_profile_normalization :
    (∀ p : Option String, p ≠ some "5" → normalizeStems p = p.getD "2") ∧
      normalizeStems (some "5") = "4" ∧
      (∀ (st : ServerState) (req : SubmitReq) (id : String) (now : Nat),
        req.hasFile = true → durationAdmits req = true →
        (separate_audio st req id now).2 =
            .okSubmit id (countNonTerminal st.jobs)
              (normalizeStems req.stemsParam)
              (submitMessage (countNonTerminal st.jobs)) ∧
          (lookupJob (separate_audio st req id now).1.jobs id).map Job.stems =
            some (normalizeStems req.stemsParam)) := by
  refine ⟨fun p h => ?_, rfl, fun st req id now h1 h2 => ?_⟩
  · cases p with
    | none => rfl
    | some s =>
      have hs : ¬ (s = "5") := fun he => h (by rw [he])
      simp [normalizeStems, hs]
  · rw [separate_audio_accepted st req id now h1 h2]
    exact ⟨rfl, by rw [lookupJob_insertOD_self]; rfl⟩

/-- C8 witness: the profile "7" passes through unchanged into the stored
job, and "5" is downgraded to "4". -/
theorem C8_witness :
    ((some "7" : Option String) ≠ some "5" ∧
        normalizeStems (some "7") = (some "7" : Option String).getD "2") ∧
      ((separate_audio initialState
          { hasFile := true, stemsParam := some "5", duration := some 10 }
          "K" 5).2 =
          .okSubmit "K" (countNonTerminal initialState.jobs)
            (normalizeStems (some "5"))
            (submitMessage (countNonTerminal initialState.jobs)) ∧
        (lookupJob (separate_audio initialState
          { hasFile := true, stemsParam := some "5", duration := some 10 }
          "K" 5).1.jobs "K").map Job.stems =
          some (normalizeStems (some "5"))) :=
  ⟨⟨by decide, C8_amended_profile_normalization.1 (some "7") (by decide)⟩,
    C8_amended_profile_normalization.2.2 initialState
      { hasFile := true, stemsParam := some "5", duration := some 10 }
      "K" 5 rfl (by decide)⟩

/-- C1 counterexample: submit job A, let the worker select it (the
`processing` prefix of `run_separation`), then submit B while A is running:
B is the only pending job but carries `queue_position = 1`, so the pending
positions are `[1]`, not the dense `[0]` — the ordering is not dense at
this instant and was not recomputed when A left the pending set. -/
theorem C1_counterexample :
    ¬ pendingDense ((separate_audio (run_separation_start
          (separate_audio initialState shortReq "A" 1).1 "A")
          shortReq "B" 2).1.jobs) ∧
      pendingPositions ((separate_audio (run_separation_start
          (separate_audio initialState shortReq "A" 1).1 "A")
          shortReq "B" 2).1.jobs) = [1] := by
  constructor
  · unfold pendingDense
    decide
  · decide

/-- C1 amended: queue positions are dense (0..m-1 in store = `createdAt`
order) immediately after each recomputation — which the worker performs
only after a job's run completes, and after any worker-loop run the pending
positions are dense — and the recomputation preserves the order, keys and
statuses of the store; but positions are not recomputed at selection or
insertion: a job inserted is assigned the count of non-terminal (queued or
processing) jobs, which exceeds its dense pending index while a job is
running. -/
theorem C1_amended_queue_positions :
    (∀ js, pendingDense (recomputePositions js)) ∧
      (∀ js, jobKeys (recomputePositions js) = jobKeys js ∧
        (recomputePositions js).map (fun p => (p.1, p.2.status)) =
          js.map (fun p => (p.1, p.2.status))) ∧
      (∀ (fuel : Nat) (orc : String → EngineOracle) (st : ServerState),
        pendingDense (process_queue (fuel + 1) orc st).jobs) ∧
      (∀ (st : ServerState) (req : SubmitReq) (id : String) (now : Nat),
        req.hasFile = true → durationAdmits req = true →
        (lookupJob (separate_audio st req id now).1.jobs id).map
            (fun j => j.queue_position) = some (countNonTerminal st.jobs)) := by
  refine ⟨recomputePositions_dense,
    fun js => ⟨recomputePositions_keys js, recomputePositions_shape js⟩,
    process_queue_dense,
    fun st req id now h1 h2 => ?_⟩
  rw [separate_audio_accepted st req id now h1 h2]
  rw [lookupJob_insertOD_self]
  rfl

/-- C1 witness: an accepted submission into the empty store is stored with
position 0 (= the number of non-terminal jobs). -/
theorem C1_witness :
    (shortReq.hasFile = true ∧ durationAdmits shortReq = true) ∧
      (lookupJob (separate_audio initialState shortReq "X" 5).1.jobs "X").map
          (fun j => j.queue_position) =
        some (countNonTerminal initialState.jobs) :=
  ⟨⟨rfl, by decide⟩,
    C1_amended_queue_positions.2.2.2 initialState shortReq "X" 5 rfl
      (by decide)⟩

/-- C2 (code bug): the input-file cleanup of `run_separation` (`app.py`
lines 260-262) runs inside the `try` block after the job was already marked
`complete`; if `os.remove` raises, the handler flips the finished job to
`error`.  Same job and engine run, differing only in whether the deletion
raises: with the raise the job ends `error` (with the deletion message as
its error detail), without it the job ends `complete`. -/
theorem C2_cleanup_failure_flips_complete_to_error :
    (lookupJob (run_separation (separate_audio initialState shortReq "A" 1).1
          "A" { okOracle with
            removeFails := some "EPERM: operation not permitted" }).jobs
        "A").map Job.status = some JobStatus.error ∧
      (lookupJob (run_separation (separate_audio initialState shortReq "A" 1).1
          "A" { okOracle with
            removeFails := some "EPERM: operation not permitted" }).jobs
        "A").map Job.error = some (some "EPERM: operation not permitted") ∧
      (lookupJob (run_separation (separate_audio initialState shortReq "A" 1).1
          "A" okOracle).jobs "A").map Job.status =
        some JobStatus.complete := by
  exact ⟨by decide, by decide, by decide⟩

/-- C3 counterexample: a job whose engine run fails reaches the terminal
`error` state with its saved input file still on disk — the input artifact
is not deleted on the `Failed` outcome, refuting deletion "on both
outcomes". -/
theorem C3_counterexample :
    (lookupJob (run_separation (separate_audio initialState shortReq "A" 1).1
          "A" { okOracle with runFails := some "separation failed" }).jobs
        "A").map Job.status = some JobStatus.error ∧
      inputPathOf "A" ∈
        (run_separation (separate_audio initialState shortReq "A" 1).1
          "A" { okOracle with runFails := some "separation failed" }).fs := by
  exact ⟨by decide, by decide⟩

/-- C3 amended: the input artifact is deleted only on the successful
(`complete`) outcome; when the engine run fails the job ends `error` with
the filesystem untouched (input retained); and a failing deletion is not
swallowed — it is caught by the job-level handler, which flips the job to
`error` carrying the deletion message, with the input still on disk. -/
theorem C3_amended_input_cleanup :
    (∀ (st : ServerState) (id : String) (o : EngineOracle) (j : Job),
        lookupJob st.jobs id = some j → o.constructFails = none →
        o.runFails = none → o.removeFails = none →
        j.input_path ∈ st.fs → st.fs.Nodup →
        (lookupJob (run_separation st id o).jobs id).map Job.status =
            some JobStatus.complete ∧
          j.input_path ∉ (run_separation st id o).fs) ∧
      (∀ (st : ServerState) (id : String) (o : EngineOracle) (j : Job)
          (m : String),
        lookupJob st.jobs id = some j → o.constructFails = none →
        o.runFails = some m →
        (lookupJob (run_separation st id o).jobs id).map Job.status =
            some JobStatus.error ∧
          (run_separation st id o).fs = st.fs) ∧
      (∀ (st : ServerState) (id : String) (o : EngineOracle) (j : Job)
          (m : String),
        lookupJob st.jobs id = some j → o.constructFails = none →
        o.runFails = none → o.removeFails = some m →
        j.input_path ∈ st.fs →
        (lookupJob (run_separation st id o).jobs id).map Job.status =
            some JobStatus.error ∧
          (lookupJob (run_separation st id o).jobs id).map Job.error =
            some (some m) ∧
          j.input_path ∈ (run_separation st id o).fs) := by
  refine ⟨fun st id o j h hcf hrf hrm hip hnd => ?_,
    fun st id o j m h hcf hrf => ?_,
    fun st id o j m h hcf hrf hrm hip => ?_⟩
  · have hs := run_separation_success st id o j h hcf hrf hrm hip hnd
    simpa [h] using hs
  · have hs := run_separation_runFail st id o j m h hcf hrf
    refine ⟨?_, hs.2⟩
    rw [hs.1]
    rfl
  · have hs := run_separation_removeFail st id o j m h hcf hrf hrm hip
    simpa [h] using hs

/-- C3 witness: for the concrete submitted job A with an all-success
engine run, the job ends `complete` and its input file is gone from disk. -/
theorem C3_witness :
    (lookupJob (separate_audio initialState shortReq "A" 1).1.jobs "A" =
        some { status := .queued, progress := 0, stems := "2", files := [],
               queue_position := 0, created_at := 1,
               input_path := inputPathOf "A", error := none } ∧
      okOracle.constructFails = none ∧ okOracle.runFails = none ∧
      okOracle.removeFails = none ∧
      inputPathOf "A" ∈ (separate_audio initialState shortReq "A" 1).1.fs ∧
      (separate_audio initialState shortReq "A" 1).1.fs.Nodup) ∧
      ((lookupJob (run_separation (separate_audio initialState shortReq "A" 1).1
            "A" okOracle).jobs "A").map Job.status =
          some JobStatus.complete ∧
        inputPathOf "A" ∉
          (run_separation (separate_audio initialState shortReq "A" 1).1
            "A" okOracle).fs) :=
  ⟨⟨by decide, rfl, rfl, rfl, by decide, by decide⟩,
    C3_amended_input_cleanup.1 _ "A" okOracle
      { status := .queued, progress := 0, stems := "2", files := [],
        queue_position := 0, created_at := 1,
        input_path := inputPathOf "A", error := none }
      (by decide) rfl rfl rfl (by decide) (by decide)⟩

/-- C4 counterexample: after three submissions are run to completion the
store holds 3 terminal jobs — above a capacity of 2 — yet a further worker
run deletes nothing (the store still holds 3) and a fourth submission grows
it to 4: no sweep to any floor exists anywhere in the program. -/
theorem C4_counterexample :
    (process_queue 4 (fun _ => okOracle)
        (separate_audio (separate_audio (separate_audio initialState
          shortReq "A" 1).1 shortReq "B" 2).1
          shortReq "C" 3).1).jobs.length = 3 ∧
      ¬ ((process_queue 4 (fun _ => okOracle)
        (separate_audio (separate_audio (separate_audio initialState
          shortReq "A" 1).1 shortReq "B" 2).1
          shortReq "C" 3).1).jobs.length ≤ 2) ∧
      ((process_queue 4 (fun _ => okOracle)
        (separate_audio (separate_audio (separate_audio initialState
          shortReq "A" 1).1 shortReq "B" 2).1
          shortReq "C" 3).1).jobs.map (fun p => p.2.status)) =
        [JobStatus.complete, JobStatus.complete, JobStatus.complete] ∧
      (process_queue 5 (fun _ => okOracle) (process_queue 4 (fun _ => okOracle)
        (separate_audio (separate_audio (separate_audio initialState
          shortReq "A" 1).1 shortReq "B" 2).1
          shortReq "C" 3).1)).jobs.length = 3 ∧
      (separate_audio (process_queue 4 (fun _ => okOracle)
        (separate_audio (separate_audio (separate_audio initialState
          shortReq "A" 1).1 shortReq "B" 2).1
          shortReq "C" 3).1) shortReq "D" 9).1.jobs.length = 4 := by
  exact ⟨by decide, by decide, by decide, by decide, by decide⟩

/-- C4 amended: no operation of the program ever removes a job from the
store: the worker loop and each job run preserve the store's keys exactly,
and a submission either leaves the keys unchanged or appends the new id, so
the store's size never decreases — there is no retention sweep and the
store grows without bound. -/
theorem C4_amended_store_never_shrinks :
    (∀ (fuel : Nat) (orc : String → EngineOracle) (st : ServerState),
        jobKeys (process_queue fuel orc st).jobs = jobKeys st.jobs) ∧
      (∀ (st : ServerState) (id : String) (o : EngineOracle),
        jobKeys (run_separation st id o).jobs = jobKeys st.jobs) ∧
      (∀ (st : ServerState) (req : SubmitReq) (id : String) (now : Nat),
        jobKeys (separate_audio st req id now).1.jobs = jobKeys st.jobs ∨
          jobKeys (separate_audio st req id now).1.jobs =
            jobKeys st.jobs ++ [id]) ∧
      (∀ (st : ServerState) (req : SubmitReq) (id : String) (now : Nat),
        st.jobs.length ≤ (separate_audio st req id now).1.jobs.length) := by
  refine ⟨process_queue_keys, run_separation_keys, separate_audio_keys,
    fun st req id now => ?_⟩
  rcases separate_audio_keys st req id now with hk | hk <;>
    have hl := congrArg List.length hk <;>
    simp only [jobKeys, List.length_map, List.length_append,
      List.length_cons, List.length_nil] at hl <;>
    omega

/-- C5: an engine-construction failure (when a construction is actually
attempted, i.e. the cache holds no matching instance) or an engine-run
failure marks only the affected job `error`, storing the exception message
as its error detail (so polling returns a Failed payload carrying that
message, non-empty whenever the message is); every other job is untouched;
and the worker loop survives: in a concrete two-job run whose first job
fails at construction, the second job still completes, the loop clears
`is_processing`, and running the loop longer changes nothing (the failed
job is never retried). -/
theorem C5_failure_isolation :
    (∀ (st : ServerState) (id : String) (o : EngineOracle) (j : Job)
        (m : String),
        lookupJob st.jobs id = some j →
        (st.separator_instance = false ∨
          st.current_model ≠ some (mkModel j.stems)) →
        o.constructFails = some m →
        lookupJob (run_separation st id o).jobs id =
          some { j with status := .error, progress := 10,
                        queue_position := 0, error := some m }) ∧
      (∀ (st : ServerState) (id id' : String) (o : EngineOracle),
        id' ≠ id →
        lookupJob (run_separation st id o).jobs id' = lookupJob st.jobs id') ∧
      (∀ (st : ServerState) (id : String) (o : EngineOracle) (j : Job)
          (m : String),
        lookupJob st.jobs id = some j → o.constructFails = none →
        o.runFails = some m →
        lookupJob (run_separation st id o).jobs id =
            some { j with status := .error, progress := 30,
                          queue_position := 0, error := some m } ∧
          get_job_status (run_separation st id o) id =
            .ok .error 30 j.files none none (some m)) ∧
      (∀ m : String, m ≠ "" → (some m : Option String) ≠ some "") ∧
      ((lookupJob (process_queue 3 (fun id => if id = "A" then
            { okOracle with constructFails := some "engine construction failed" }
          else okOracle)
          (separate_audio (separate_audio initialState shortReq "A" 1).1
            shortReq "B" 2).1).jobs "A").map Job.status =
            some JobStatus.error ∧
        (lookupJob (process_queue 3 (fun id => if id = "A" then
            { okOracle with constructFails := some "engine construction failed" }
          else okOracle)
          (separate_audio (separate_audio initialState shortReq "A" 1).1
            shortReq "B" 2).1).jobs "A").map Job.error =
            some (some "engine construction failed") ∧
        (lookupJob (process_queue 3 (fun id => if id = "A" then
            { okOracle with constructFails := some "engine construction failed" }
          else okOracle)
          (separate_audio (separate_audio initialState shortReq "A" 1).1
            shortReq "B" 2).1).jobs "B").map Job.status =
            some JobStatus.complete ∧
        (process_queue 3 (fun id => if id = "A" then
            { okOracle with constructFails := some "engine construction failed" }
          else okOracle)
          (separate_audio (separate_audio initialState shortReq "A" 1).1
            shortReq "B" 2).1).is_processing = false ∧
        process_queue 5 (fun id => if id = "A" then
            { okOracle with constructFails := some "engine construction failed" }
          else okOracle)
          (separate_audio (separate_audio initialState shortReq "A" 1).1
            shortReq "B" 2).1 =
          process_queue 3 (fun id => if id = "A" then
            { okOracle with constructFails := some "engine construction failed" }
          else okOracle)
          (separate_audio (separate_audio initialState shortReq "A" 1).1
            shortReq "B" 2).1) := by
  refine ⟨fun st id o j m h hmiss hc =>
      (run_separation_constructFail st id o j m h hmiss hc).1,
    run_separation_lookup_ne,
    fun st id o j m h hcf hrf => ?_,
    fun m hm he => hm (Option.some.inj he),
    by decide, by decide, by decide, by decide, by decide⟩
  have hs := run_separation_runFail st id o j m h hcf hrf
  refine ⟨hs.1, ?_⟩
  unfold get_job_status
  rw [hs.1]
  rfl

/-- C5 witness: the concrete failing construction on a fresh engine cache
marks the job `error` with the message, and polling that job reports it. -/
theorem C5_witness :
    (lookupJob (separate_audio initialState shortReq "A" 1).1.jobs "A" =
        some { status := .queued, progress := 0, stems := "2", files := [],
               queue_position := 0, created_at := 1,
               input_path := inputPathOf "A", error := none } ∧
      ({ okOracle with runFails := some "boom" } : EngineOracle).constructFails
          = none ∧
      ({ okOracle with runFails := some "boom" } : EngineOracle).runFails =
        some "boom") ∧
      (lookupJob (run_separation (separate_audio initialState shortReq "A" 1).1
            "A" { okOracle with runFails := some "boom" }).jobs "A" =
          some { status := .error, progress := 30, stems := "2", files := [],
                 queue_position := 0, created_at := 1,
                 input_path := inputPathOf "A", error := some "boom" } ∧
        get_job_status (run_separation (separate_audio initialState shortReq
            "A" 1).1 "A" { okOracle with runFails := some "boom" }) "A" =
          .ok .error 30 [] none none (some "boom")) :=
  ⟨⟨by decide, rfl, rfl⟩,
    C5_failure_isolation.2.2.1 _ "A" { okOracle with runFails := some "boom" }
      { status := .queued, progress := 0, stems := "2", files := [],
        queue_position := 0, created_at := 1,
        input_path := inputPathOf "A", error := none }
      "boom" (by decide) rfl rfl⟩

/-- C7: the engine cache (a) returns the cached instance untouched, with no
release or construction, when the requested model matches the cached one;
(b) on a model change, performs exactly one release of the old instance
followed by one construction of the new one, in that order; (c) never holds
more than one live instance at any prefix of the event trace of any single
run or of any worker-loop run; and (d) a run of jobs over the isolated
cache step (to which every successful `run_separation` is proved equal in
its engine effect) constructs exactly once per model change, never once per
job. -/
theorem C7_engine_cache :
    (∀ (st : ServerState) (id : String) (o : EngineOracle) (j : Job),
        lookupJob st.jobs id = some j →
        st.separator_instance = true →
        st.current_model = some (mkModel j.stems) →
        ((run_separation st id o).separator_instance,
            (run_separation st id o).current_model,
            (run_separation_ev st id o).2) =
          (true, some (mkModel j.stems), [])) ∧
      (∀ (st : ServerState) (id : String) (o : EngineOracle) (j : Job)
          (c : String),
        lookupJob st.jobs id = some j →
        st.separator_instance = true → st.current_model = some c →
        c ≠ mkModel j.stems → o.constructFails = none →
        ((run_separation st id o).separator_instance,
            (run_separation st id o).current_model,
            (run_separation_ev st id o).2) =
          (true, some (mkModel j.stems),
            [EngineEvent.release c,
              EngineEvent.construct (mkModel j.stems)])) ∧
      (∀ (st : ServerState) (id : String) (o : EngineOracle) (n : Nat),
        liveCount (liveOf st) ((run_separation_ev st id o).2.take n) ≤ 1) ∧
      (∀ (fuel : Nat) (orc : String → EngineOracle) (st : ServerState)
          (n : Nat),
        liveCount (liveOf st) ((process_queue_ev fuel orc st).2.take n) ≤ 1) ∧
      (∀ (st : ServerState) (id : String) (o : EngineOracle) (j : Job),
        lookupJob st.jobs id = some j → o.constructFails = none →
        ((run_separation st id o).separator_instance,
            (run_separation st id o).current_model,
            (run_separation_ev st id o).2) =
          acquireStep st.separator_instance st.current_model
            (mkModel j.stems)) ∧
      (∀ ms : List String,
        constructCount (acquireRun false none ms).2.2 =
          profileChanges none ms) := by
  refine ⟨run_separation_hit,
    fun st id o j c h hsep hcur hne hcf => ?_,
    fun st id o n => (run_separation_live st id o).1 n,
    process_queue_live,
    run_separation_acquire,
    acquireRun_cold⟩
  rw [run_separation_acquire st id o j h hcf, hsep, hcur,
    acquireStep_change c (mkModel j.stems) hne]

/-- C7 witness: with the two-stem model cached, a two-stem job reuses the
instance with no events; with the four-stem model cached, a two-stem job
releases it and then constructs the two-stem model. -/
theorem C7_witness :
    (lookupJob (cacheState "spleeter:2stems").jobs "A" = some jobA ∧
        (cacheState "spleeter:2stems").separator_instance = true ∧
        (cacheState "spleeter:2stems").current_model =
          some (mkModel jobA.stems) ∧
        ("spleeter:4stems" : String) ≠ mkModel jobA.stems) ∧
      ((run_separation (cacheState "spleeter:2stems") "A"
            okOracle).separator_instance,
          (run_separation (cacheState "spleeter:2stems") "A"
            okOracle).current_model,
          (run_separation_ev (cacheState "spleeter:2stems") "A"
            okOracle).2) = (true, some (mkModel jobA.stems), []) ∧
      ((run_separation (cacheState "spleeter:4stems") "A"
            okOracle).separator_instance,
          (run_separation (cacheState "spleeter:4stems") "A"
            okOracle).current_model,
          (run_separation_ev (cacheState "spleeter:4stems") "A"
            okOracle).2) =
        (true, some (mkModel jobA.stems),
          [EngineEvent.release "spleeter:4stems",
            EngineEvent.construct (mkModel jobA.stems)]) :=
  ⟨⟨by decide, rfl, by decide, by decide⟩,
    C7_engine_cache.1 (cacheState "spleeter:2stems") "A" okOracle jobA
      (by decide) rfl (by decide),
    C7_engine_cache.2.1 (cacheState "spleeter:4stems") "A" okOracle jobA
      "spleeter:4stems" (by decide) rfl rfl (by decide) rfl⟩
